import Mathlib

/-!
# Verification of the stock-analysis data-fusion pipeline

Shallow embedding of the core of the `stock-analysis` repository:
the ticker resolver, the price-history fetcher, the four-source dividend
aggregator (`src/lib/eastmoney.ts`) and the yearly-metrics route handler
(`src/app/api/stock/route.ts`).

JavaScript numbers that can be `NaN` are modelled as `Option ℚ` with
`none` standing for `NaN`; `undefined`/absent JSON fields are modelled
with an outer `Option`.  Network interaction is modelled by an explicit
outcome value per outbound call: either the `fetch` promise rejects, or a
response with an HTTP status and a parsed (or unparsable) body arrives.
`Math.pow` with a real exponent is modelled with `Real.rpow`.
-/

namespace StockAnalysis

/-! ## JS string and number primitives -/

/-- JS whitespace (the characters matched by `\s` and removed by `trim`),
restricted to the code points that occur in this pipeline's data. -/
def isJsSpace (c : Char) : Bool :=
  c = ' ' ∨ c = '\t' ∨ c = '\n' ∨ c = '\r' ∨ c.toNat = 11 ∨ c.toNat = 12 ∨
    c.toNat = 0xa0 ∨ c.toNat = 0xfeff

/-- `s.replace(/\s/g, "")`. -/
def stripWs (s : String) : String :=
  ⟨s.toList.filter (fun c => ¬ isJsSpace c)⟩

/-- `s.trim()`. -/
def jsTrim (s : String) : String :=
  ⟨((s.toList.dropWhile isJsSpace).reverse.dropWhile isJsSpace).reverse⟩

/-- Helper for `splitOnChar`. -/
def splitOnCharAux (sep : Char) : List Char → List Char → List String
  | [], acc => [⟨acc.reverse⟩]
  | c :: rest, acc =>
    if c = sep then ⟨acc.reverse⟩ :: splitOnCharAux sep rest []
    else splitOnCharAux sep rest (c :: acc)

/-- JS `s.split(sep)` for a one-character separator. -/
def splitOnChar (s : String) (sep : Char) : List String :=
  splitOnCharAux sep s.toList []

/-- JS `s.slice(0, n)` (all characters in this pipeline's data are single
UTF-16 units). -/
def strTake (s : String) (n : Nat) : String :=
  ⟨s.toList.take n⟩

/-- Value of a digit list read in base 10 (`parseInt(s, 10)` on all-digit input). -/
def digitsToNat (cs : List Char) : Nat :=
  cs.foldl (fun a c => a * 10 + (c.toNat - 48)) 0

/-- Decimal numeral `digits [ . digits ]` with at least one leading digit,
as produced by the regex capture `\d+\.?\d*`. -/
def decimalOfChars (cs : List Char) : ℚ :=
  let p := cs.span Char.isDigit
  match p.2 with
  | '.' :: frac => (digitsToNat p.1 : ℚ) + (digitsToNat (frac.takeWhile Char.isDigit) : ℚ) / ((10 : ℚ) ^ (frac.takeWhile Char.isDigit).length)
  | _ => (digitsToNat p.1 : ℚ)

/-- `parseFloat` on a string of digits and dots (the regex capture `[\d.]+`):
longest numeric prefix `digits [. digits]` or `. digits`; `none` is `NaN`. -/
def parseFloatChars (cs : List Char) : Option ℚ :=
  let p := cs.span Char.isDigit
  match p.2 with
  | '.' :: r2 =>
    let fp := r2.takeWhile Char.isDigit
    if p.1 = [] ∧ fp = [] then none
    else some ((digitsToNat p.1 : ℚ) + (digitsToNat fp : ℚ) / ((10 : ℚ) ^ fp.length))
  | _ => if p.1 = [] then none else some ((digitsToNat p.1 : ℚ))

/-- Unsigned part of JS `Number(string)` coercion, decimal-numeral subset:
`digits`, `digits.digits`, `digits.`, `.digits`.  Hexadecimal, exponent and
`Infinity` forms are outside the data handled by this pipeline and are not
modelled.  `none` is `NaN`. -/
def parseUnsignedDec (cs : List Char) : Option ℚ :=
  let p := cs.span Char.isDigit
  match p.2 with
  | [] => if p.1 = [] then none else some ((digitsToNat p.1 : ℚ))
  | '.' :: frac =>
    if frac.all Char.isDigit ∧ (p.1 ≠ [] ∨ frac ≠ []) then
      some ((digitsToNat p.1 : ℚ) + (digitsToNat frac : ℚ) / ((10 : ℚ) ^ frac.length))
    else none
  | _ => none

/-- JS `Number(string)`; `none` is `NaN`. -/
def jsNumberOfString (s : String) : Option ℚ :=
  let t := jsTrim s
  if t = "" then some 0
  else
    match t.toList with
    | '-' :: rest => (parseUnsignedDec rest).map Neg.neg
    | '+' :: rest => parseUnsignedDec rest
    | cs => parseUnsignedDec cs

/-- A primitive JSON field value (string or number), as found in the
provider payload rows. -/
inductive JPrim where
  | num (q : ℚ)
  | str (s : String)
deriving DecidableEq

/-- JS `Number(v)` on a string-or-number value; `none` is `NaN`. -/
def jsNumberOfPrim : JPrim → Option ℚ
  | .num q => some q
  | .str s => jsNumberOfString s

/-! ## JS date model

`new Date(s)` is modelled for the ISO forms that flow through this code:
`"YYYY-MM-DD"` (with month/day range validation) and the year-only form
`"YYYY"`.  Any other string is an invalid date (`getFullYear()` is `NaN`,
modelled as `none`). -/

structure CivilDate where
  y : Nat
  m : Nat
  d : Nat
deriving DecidableEq

def isLeapYear (y : Nat) : Bool :=
  (y % 4 = 0 ∧ y % 100 ≠ 0) ∨ y % 400 = 0

def daysInMonth (y m : Nat) : Nat :=
  if m = 2 then (if isLeapYear y then 29 else 28)
  else if m = 4 ∨ m = 6 ∨ m = 9 ∨ m = 11 then 30
  else 31

/-- Days since 1970-01-01 of a civil date (valid for years ≥ 1). -/
def daysFromCivil (y m d : Nat) : Int :=
  let y' := if m ≤ 2 then y - 1 else y
  let era := y' / 400
  let yoe := y' % 400
  let mp := if m > 2 then m - 3 else m + 9
  let doy := (153 * mp + 2) / 5 + d - 1
  let doe := yoe * 365 + yoe / 4 - yoe / 100 + doy
  (era : Int) * 146097 + (doe : Int) - 719468

def parseJsDate (s : String) : Option CivilDate :=
  match s.toList with
  | [a, b, c, d] =>
    if a.isDigit ∧ b.isDigit ∧ c.isDigit ∧ d.isDigit then
      some ⟨digitsToNat [a, b, c, d], 1, 1⟩
    else none
  | [a, b, c, d, '-', m1, m2, '-', d1, d2] =>
    if a.isDigit ∧ b.isDigit ∧ c.isDigit ∧ d.isDigit ∧ m1.isDigit ∧ m2.isDigit ∧
        d1.isDigit ∧ d2.isDigit then
      let y := digitsToNat [a, b, c, d]
      let m := digitsToNat [m1, m2]
      let dd := digitsToNat [d1, d2]
      if 1 ≤ m ∧ m ≤ 12 ∧ 1 ≤ dd ∧ dd ≤ daysInMonth y m then some ⟨y, m, dd⟩ else none
    else none
  | _ => none

/-- `new Date(s).getFullYear()`; `none` is `NaN`. -/
def jsDateYear (s : String) : Option Int :=
  (parseJsDate s).map (fun dt => (dt.y : Int))

/-- `new Date(s).getTime()` in milliseconds; `none` is `NaN`. -/
def jsDateMs (s : String) : Option ℚ :=
  (parseJsDate s).map (fun dt => (daysFromCivil dt.y dt.m dt.d : ℚ) * 86400000)

/-! ## Ticker resolver (`toSecId`, eastmoney.ts lines 12-30) -/

inductive Market where
  | sh
  | sz
deriving DecidableEq

structure SecId where
  secid : String
  market : Market
deriving DecidableEq

/-- `toSecId`: strip whitespace, accept exactly six ASCII digits, classify
by first digit / first two digits, first match wins. -/
def toSecId (symbol : String) : Option SecId :=
  let raw := stripWs symbol
  let cs := raw.toList
  if cs.length = 6 ∧ cs.all Char.isDigit then
    let first := cs.headD ' '
    let first2 := cs.take 2
    if first = '6' ∨ first = '5' ∨ first = '9' then some ⟨"1." ++ raw, .sh⟩
    else if first2 = ['5', '1'] ∨ first2 = ['5', '6'] ∨ first2 = ['5', '8'] then
      some ⟨"1." ++ raw, .sh⟩
    else if first = '0' ∨ first = '3' then some ⟨"0." ++ raw, .sz⟩
    else if first2 = ['1', '5'] ∨ first2 = ['1', '6'] then some ⟨"0." ++ raw, .sz⟩
    else none
  else none

/-- Resolver as the specification words it: whitespace stripped, exactly six
ASCII digits, Exchange A (Shanghai) when the first digit is 6/5/9 or the
first two digits are 51/56/58, Exchange B (Shenzhen) when the first digit is
0/3 or the first two digits are 15/16. -/
def toSecIdSpec (symbol : String) : Option SecId :=
  let raw := stripWs symbol
  let cs := raw.toList
  if cs.length = 6 ∧ cs.all Char.isDigit then
    if (cs.headD ' ' = '6' ∨ cs.headD ' ' = '5' ∨ cs.headD ' ' = '9') ∨
        (cs.take 2 = ['5', '1'] ∨ cs.take 2 = ['5', '6'] ∨ cs.take 2 = ['5', '8']) then
      some ⟨"1." ++ raw, .sh⟩
    else if (cs.headD ' ' = '0' ∨ cs.headD ' ' = '3') ∨
        (cs.take 2 = ['1', '5'] ∨ cs.take 2 = ['1', '6']) then
      some ⟨"0." ++ raw, .sz⟩
    else none
  else none

/-! ## Network model

A single outbound call is modelled by its outcome: either the `fetch`
promise rejects (network error / timeout), or a response arrives with an
HTTP status and a body whose parse (`res.json()` / `res.text()`) either
succeeds or throws. -/

inductive FetchOutcome (α : Type) where
  | netError (msg : String)
  | response (status : Nat) (body : Except String α)

/-- JS `res.ok`: status in `[200, 300)`. -/
def resOk (status : Nat) : Bool :=
  200 ≤ status ∧ status < 300

/-! ## Dividend record shapes -/

/-- Dividend event as produced by `fetchDividend` (with ex-date string). -/
structure DividendEventEx where
  year : Int
  cashPerShare : ℚ
  exDate : String
deriving DecidableEq

/-- Dividend event as consumed by the route (`{ year, cashPerShare }`). -/
structure DividendEvent where
  year : Int
  cashPerShare : ℚ
deriving DecidableEq

/-! ## Source 1: data-center query (`fetchDividend`, eastmoney.ts 97-133) -/

/-- A data-center row; JSON `null` fields are folded into `none` (the code
reads them through `??`, which skips both `null` and `undefined`, and the
later `cash === undefined` / falsy-string checks reject both the same way). -/
structure DividendRow where
  CASH_PER_SHARE : Option JPrim
  cashPerShare : Option JPrim
  EX_DIVIDEND_DATE : Option String
  exDividendDate : Option String
  REPORT_DATE : Option String
deriving DecidableEq

/-- `json?.data` of the data-center response: absent, a plain array, or an
object with a nested `data` array. -/
inductive DivData where
  | arr (rows : List DividendRow)
  | obj (data : Option (List DividendRow))
deriving DecidableEq

structure DivJson where
  data : Option DivData
deriving DecidableEq

/-- `Array.isArray(raw) ? raw : (raw?.data ?? [])`. -/
def divRows (j : DivJson) : List DividendRow :=
  match j.data with
  | none => []
  | some (.arr rows) => rows
  | some (.obj d) => d.getD []

/-- Per-row conversion in the `fetchDividend` loop (`continue` is `none`). -/
def dividendRowEvent (r : DividendRow) : Option DividendEventEx :=
  let cash := r.CASH_PER_SHARE <|> r.cashPerShare
  let exDate := (r.EX_DIVIDEND_DATE <|> r.exDividendDate <|> r.REPORT_DATE).getD ""
  if exDate = "" then none
  else
    match cash with
    | none => none
    | some c =>
      match jsNumberOfPrim c with
      | none => none
      | some num =>
        if num ≤ 0 then none
        else
          match jsDateYear exDate with
          | none => none
          | some year => some ⟨year, num, strTake exDate 10⟩

/-- `fetchDividend`: returns `[]` on a non-success status, but a rejected
`fetch` or a throwing `res.json()` propagates to the caller. -/
def fetchDividend (o : FetchOutcome DivJson) : Except String (List DividendEventEx) :=
  match o with
  | .netError e => .error e
  | .response status body =>
    if resOk status then
      match body with
      | .error e => .error e
      | .ok json => .ok ((divRows json).filterMap dividendRowEvent)
    else .ok []

/-! ## Profile-text parser (`parseCashPerShareFromProfile`, eastmoney.ts 144-150) -/

/-- Does `cs` start with `pat`? -/
def listStartsWith (pat : List Char) : List Char → Bool
  | cs =>
    match pat, cs with
    | [], _ => true
    | _ :: _, [] => false
    | p :: ps, c :: rest => p = c && listStartsWith ps rest

/-- Does `cs` contain `pat` as a contiguous run? -/
def listContains (pat : List Char) : List Char → Bool
  | [] => listStartsWith pat []
  | c :: rest => listStartsWith pat (c :: rest) || listContains pat rest

/-- `/pat/.test(s)` for a literal pattern: substring containment. -/
def containsSub (s pat : String) : Bool :=
  listContains pat.toList s.toList

/-- Match the capture `(\d+\.?\d*)` at the head of `cs`: greedy digits,
optional dot, greedy digits (nothing after the capture can fail, so greedy
matching without backtracking is exact here). -/
def matchAmountDigits (cs : List Char) : Option (List Char) :=
  let p := cs.span Char.isDigit
  if p.1 = [] then none
  else
    match p.2 with
    | '.' :: r2 => some (p.1 ++ '.' :: r2.takeWhile Char.isDigit)
    | _ => some p.1

/-- Try `/10[派送](\d+\.?\d*)\s*元?/` at this exact position; the trailing
`\s*元?` always succeeds and is not captured. -/
def profileTryAt (cs : List Char) : Option (List Char) :=
  match cs with
  | '1' :: '0' :: v :: rest =>
    if v = '派' ∨ v = '送' then matchAmountDigits rest else none
  | _ => none

/-- First match of the profile pattern anywhere in the string
(left-to-right scan, as `String.prototype.match`). -/
def profileFind : List Char → Option (List Char)
  | [] => none
  | c :: rest =>
    match profileTryAt (c :: rest) with
    | some cap => some cap
    | none => profileFind rest

/-- `parseCashPerShareFromProfile`: no-distribution markers yield `null`;
otherwise decode the first `10派X`/`10送X` amount as `X/10` per share.
(`Number` on the all-digit capture is never `NaN`.) -/
def parseCashPerShareFromProfile (profile : String) : Option ℚ :=
  if profile = "" ∨ containsSub profile "不分配" ∨ containsSub profile "不转增" then none
  else
    match profileFind profile.toList with
    | none => none
    | some cap =>
      let num := decimalOfChars cap
      if num ≤ 0 then none else some (num / 10)

/-! ## Source 2: F10 report query (`fetchDividendF10`, eastmoney.ts 153-195) -/

structure F10FhyxRow where
  IMPL_PLAN_PROFILE : Option String
  EX_DIVIDEND_DATE : Option String
  NOTICE_DATE : Option String
deriving DecidableEq

/-- A year-carrying field of a legacy `sgbh` row (`typeof` distinguishes
numbers from strings; numeric year payloads are integral in this feed). -/
inductive YearVal where
  | num (n : Int)
  | str (s : String)
deriving DecidableEq

structure SgbhRow where
  f03 : Option JPrim
  cash : Option JPrim
  perShareDividend : Option JPrim
  f01 : Option YearVal
  year : Option YearVal
  noticeDate : Option YearVal
deriving DecidableEq

structure F10Json where
  fhyx : Option (List F10FhyxRow)
  dataSgbhData : Option (List SgbhRow)
  sgbh : Option (List SgbhRow)
deriving DecidableEq

/-- The `sgbh` year decoding: `0` if absent/falsy, `getFullYear` of the
first four characters, `|| Number(...)` fallback (a fractional `Number`
value cannot lie in the accepted range, so it is folded into `NaN`). -/
def sgbhYear (yv : Option YearVal) : Option Int :=
  let fallback := fun (s : String) =>
    match jsNumberOfString (strTake s 4) with
    | some q => if q.den = 1 then some q.num else none
    | none => none
  match yv with
  | none => some 0
  | some (.num n) => some n
  | some (.str s) =>
    if s = "" then some 0
    else
      match jsDateYear (strTake s 4) with
      | some y => if y ≠ 0 then some y else fallback s
      | none => fallback s

/-- Per-row conversion of the preferred `fhyx` list. -/
def fhyxRowEvent (row : F10FhyxRow) : Option DividendEvent :=
  let profile := row.IMPL_PLAN_PROFILE.getD ""
  match parseCashPerShareFromProfile profile with
  | none => none
  | some cash =>
    let exDate := (row.EX_DIVIDEND_DATE <|> row.NOTICE_DATE).getD ""
    if exDate = "" then none
    else
      match jsDateYear (strTake exDate 10) with
      | some year => if 1990 < year ∧ year < 2100 then some ⟨year, cash⟩ else none
      | none => none

/-- Per-row conversion of the legacy `sgbh` list. -/
def sgbhRowEvent (row : SgbhRow) : Option DividendEvent :=
  match row.f03 <|> row.cash <|> row.perShareDividend with
  | none => none
  | some pay =>
    match jsNumberOfPrim pay with
    | none => none
    | some num =>
      if num ≤ 0 then none
      else
        match sgbhYear (row.f01 <|> row.year <|> row.noticeDate) with
        | some year => if 1990 < year ∧ year < 2100 then some ⟨year, num⟩ else none
        | none => none

/-- `fetchDividendF10`: prefer `fhyx` rows (if any parse), fall back to the
legacy `sgbh` shape; `[]` on non-success status; a rejected `fetch` or a
throwing `res.json()` propagates. -/
def fetchDividendF10 (o : FetchOutcome F10Json) : Except String (List DividendEvent) :=
  match o with
  | .netError e => .error e
  | .response status body =>
    if resOk status then
      match body with
      | .error e => .error e
      | .ok json =>
        let fhyx := json.fhyx.getD []
        let fhyxResult := if fhyx.length > 0 then fhyx.filterMap fhyxRowEvent else []
        if fhyxResult.length > 0 then .ok fhyxResult
        else .ok (((json.dataSgbhData <|> json.sgbh).getD []).filterMap sgbhRowEvent)
    else .ok []

/-- `isLikelyEtfOrFund` (eastmoney.ts 198-202). -/
def isLikelyEtfOrFund (securityCode : String) : Bool :=
  if securityCode.toList.length = 6 then
    let first2 := securityCode.toList.take 2
    first2 = ['5', '1'] ∨ first2 = ['5', '6'] ∨ first2 = ['5', '8'] ∨
      first2 = ['1', '5'] ∨ first2 = ['1', '6']
  else false

/-! ## Source 4: fund-page HTML scraping
(`fetchFundDividendFromPage`, eastmoney.ts 214-261)

The three regex passes are deterministic (every quantifier's character
class is disjoint from what follows it), so they are modelled by direct
scanners; the lazy bounded gaps `[\s\S]{0,n}?` try the shortest gap
first. -/

/-- Consume a literal; `some rest` on success. -/
def eatLit (lit : List Char) (cs : List Char) : Option (List Char) :=
  if listStartsWith lit cs then some (cs.drop lit.length) else none

/-- Consume `\s*`. -/
def eatWs (cs : List Char) : List Char :=
  cs.dropWhile isJsSpace

/-- Consume `[\d-]+` (at least one character). -/
def eatDigitsDashes (cs : List Char) : Option (List Char) :=
  let p := cs.span (fun c => c.isDigit || c = '-')
  if p.1 = [] then none else some p.2

/-- Consume and capture `([\d.]+)`. -/
def eatCapAmount (cs : List Char) : Option (List Char × List Char) :=
  let p := cs.span (fun c => c.isDigit || c = '.')
  if p.1 = [] then none else some (p.1, p.2)

/-- Consume and capture `(\d{4})`. -/
def take4Digits (cs : List Char) : Option (List Char × List Char) :=
  match cs with
  | a :: b :: c :: d :: rest =>
    if a.isDigit ∧ b.isDigit ∧ c.isDigit ∧ d.isDigit then some ([a, b, c, d], rest)
    else none
  | _ => none

/-- Method 1 pattern at a fixed position:
`(\d{4})年\s*\|\s*[\d-]+\s*\|\s*[\d-]+\s*\|\s*每份派现金\s*([\d.]+)\s*元`. -/
def m1At (cs : List Char) : Option (List Char × List Char × List Char) := do
  let (y, r) ← take4Digits cs
  let r ← eatLit ['年'] r
  let r ← eatLit ['|'] (eatWs r)
  let r ← eatDigitsDashes (eatWs r)
  let r ← eatLit ['|'] (eatWs r)
  let r ← eatDigitsDashes (eatWs r)
  let r ← eatLit ['|'] (eatWs r)
  let r ← eatLit "每份派现金".toList (eatWs r)
  let (amt, r) ← eatCapAmount (eatWs r)
  let r ← eatLit ['元'] (eatWs r)
  some (y, amt, r)

/-- Tail of the method 2 pattern: `每份派现金\s*([\d.]+)\s*元`. -/
def m2TailAt (cs : List Char) : Option (List Char × List Char) := do
  let r ← eatLit "每份派现金".toList cs
  let (amt, r) ← eatCapAmount (eatWs r)
  let r ← eatLit ['元'] (eatWs r)
  some (amt, r)

/-- Lazy bounded gap `[\s\S]{0,n}?` before a tail matcher: try gap 0 first. -/
def lazyGap (tail : List Char → Option (List Char × List Char)) :
    Nat → List Char → Option (List Char × List Char)
  | n, cs =>
    match tail cs with
    | some res => some res
    | none =>
      match n, cs with
      | Nat.succ m, _ :: rest => lazyGap tail m rest
      | _, _ => none

/-- Method 2 pattern at a fixed position:
`(\d{4})年[\s\S]{0,200}?每份派现金\s*([\d.]+)\s*元`. -/
def m2At (cs : List Char) : Option (List Char × List Char × List Char) := do
  let (y, r) ← take4Digits cs
  let r ← eatLit ['年'] r
  let (amt, r2) ← lazyGap m2TailAt 200 r
  some (y, amt, r2)

/-- Consume `<td[^>]*>` (greedy `[^>]*` then the closing `>`). -/
def eatTdOpen (cs : List Char) : Option (List Char) := do
  let r ← eatLit "<td".toList cs
  eatLit ['>'] (r.dropWhile (fun c => c != '>'))

/-- Tail of the method 3 pattern: `<td[^>]*>每份派现金\s*([\d.]+)\s*元<\/td>`. -/
def m3TailAt (cs : List Char) : Option (List Char × List Char) := do
  let r ← eatTdOpen cs
  let r ← eatLit "每份派现金".toList r
  let (amt, r) ← eatCapAmount (eatWs r)
  let r ← eatLit "元</td>".toList (eatWs r)
  some (amt, r)

/-- Method 3 pattern at a fixed position:
`<td[^>]*>(\d{4})年<\/td>[\s\S]{0,500}?<td[^>]*>每份派现金\s*([\d.]+)\s*元<\/td>`. -/
def m3At (cs : List Char) : Option (List Char × List Char × List Char) := do
  let r ← eatTdOpen cs
  let (y, r) ← take4Digits r
  let r ← eatLit "年</td>".toList r
  let (amt, r2) ← lazyGap m3TailAt 500 r
  some (y, amt, r2)

/-- Global (`g`-flag) scan: on success continue after the match, on failure
advance one character.  Fuel bounds the number of scan steps; every step
strictly shortens the input, so `cs.length` fuel is exact. -/
def scanAllFuel (pat : List Char → Option (List Char × List Char × List Char)) :
    Nat → List Char → List (List Char × List Char)
  | 0, _ => []
  | _, [] => []
  | Nat.succ fuel, c :: rest =>
    match pat (c :: rest) with
    | some (y, amt, r) => (y, amt) :: scanAllFuel pat fuel r
    | none => scanAllFuel pat fuel rest

def scanAll (pat : List Char → Option (List Char × List Char × List Char))
    (cs : List Char) : List (List Char × List Char) :=
  scanAllFuel pat cs.length cs

/-- The shared `result.push` guard of all three methods:
`parseInt(year, 10)`, `parseFloat(cash)`, keep only
`1990 < year < 2100` and finite `cash > 0`. -/
def fundRowEvent (p : List Char × List Char) : Option DividendEvent :=
  let year : Int := (digitsToNat p.1 : Int)
  match parseFloatChars p.2 with
  | none => none
  | some cash =>
    if 1990 < year ∧ year < 2100 ∧ 0 < cash then some ⟨year, cash⟩ else none

/-- `fetchFundDividendFromPage`: three successively looser HTML patterns,
first pass that yields rows wins; `[]` on non-success status; a rejected
`fetch` or a throwing `res.text()` propagates. -/
def fetchFundDividendFromPage (o : FetchOutcome String) : Except String (List DividendEvent) :=
  match o with
  | .netError e => .error e
  | .response status body =>
    if resOk status then
      match body with
      | .error e => .error e
      | .ok html =>
        let r1 := (scanAll m1At html.toList).filterMap fundRowEvent
        if r1.length = 0 then
          let r2 := (scanAll m2At html.toList).filterMap fundRowEvent
          if r2.length = 0 then
            .ok ((scanAll m3At html.toList).filterMap fundRowEvent)
          else .ok r2
        else .ok r1
    else .ok []

/-! ## Source 3: quote-snapshot API
(`fetchEtfDividendFromQuote`, eastmoney.ts 267-316) -/

structure QuoteRow where
  CASH_PER_SHARE : Option JPrim
  cashPerShare : Option JPrim
  f03 : Option JPrim
  EX_DIVIDEND_DATE : Option String
  exDate : Option String
  f01 : Option String
deriving DecidableEq

/-- `json?.data` when it is an array (`Array.isArray`); `none` otherwise. -/
structure QuoteJson where
  data : Option (List QuoteRow)
deriving DecidableEq

/-- The response text of one quote URL: unparsable, direct JSON, or a
JSONP wrapper `fn(...)` whose payload parses. -/
inductive QuoteText where
  | unparsable
  | direct (j : QuoteJson)
  | jsonp (j : QuoteJson)

/-- Per-row conversion inside the quote loop. -/
def quoteRowEvent (row : QuoteRow) : Option DividendEvent :=
  match row.CASH_PER_SHARE <|> row.cashPerShare <|> row.f03,
      row.EX_DIVIDEND_DATE <|> row.exDate <|> row.f01 with
  | some cash, some date =>
    if date = "" then none
    else
      match jsDateYear (strTake date 10), jsNumberOfPrim cash with
      | some year, some num =>
        if 1990 < year ∧ year < 2100 ∧ 0 < num then some ⟨year, num⟩ else none
      | _, _ => none
  | _, _ => none

/-- One URL attempt of the quote source; the whole per-URL block sits in a
`try`/`catch`, so every failure mode is absorbed into `[]`. -/
def quoteTryOne (o : FetchOutcome QuoteText) : List DividendEvent :=
  match o with
  | .netError _ => []
  | .response status body =>
    if resOk status then
      match body with
      | .error _ => []
      | .ok .unparsable => []
      | .ok (.direct j) | .ok (.jsonp j) =>
        match j.data with
        | none => []
        | some rows => rows.filterMap quoteRowEvent
    else []

/-- `fetchEtfDividendFromQuote`: two URLs in order, first non-empty result
wins; never raises. -/
def fetchEtfDividendFromQuote (o1 o2 : FetchOutcome QuoteText) : List DividendEvent :=
  let r1 := quoteTryOne o1
  if r1.length > 0 then r1
  else
    let r2 := quoteTryOne o2
    if r2.length > 0 then r2 else []

/-! ## Price-history fetcher (`fetchKline`, eastmoney.ts 43-78) -/

/-- One parsed price bar (`open` is a Lean keyword, hence `openP`).
`Option ℚ` fields are `NaN` when `none`. -/
structure KBar where
  date : String
  openP : Option ℚ
  close : Option ℚ
  high : Option ℚ
  low : Option ℚ
  volume : ℚ
deriving DecidableEq, Inhabited

structure KData where
  name : Option String
  klines : Option (List String)
deriving DecidableEq

structure KlineJson where
  data : Option KData
deriving DecidableEq

structure KlineRes where
  name : Option String
  list : List KBar
deriving DecidableEq

/-- `Number(parts[i])`, where a missing part is `undefined` (`NaN`). -/
def jsNumberOfPart (p : Option String) : Option ℚ :=
  match p with
  | none => none
  | some s => jsNumberOfString s

/-- Parse one kline line `"date,open,close,high,low,volume,..."`
(`Number(parts[5]) || 0` turns `NaN` — and keeps `0` — as `0`). -/
def parseKlineLine (line : String) : KBar :=
  let parts := splitOnChar line ','
  { date := parts.headD ""
    openP := jsNumberOfPart (parts.get? 1)
    close := jsNumberOfPart (parts.get? 2)
    high := jsNumberOfPart (parts.get? 3)
    low := jsNumberOfPart (parts.get? 4)
    volume := (jsNumberOfPart (parts.get? 5)).getD 0 }

def klineEmptyMsg : String :=
  "未返回K线数据，请检查股票代码是否正确（支持沪市/深市 A 股，如 600519、000001）"

/-- `fetchKline`: throws on a non-success status, a failing `res.json()`,
and on an absent or empty `klines` array. -/
def fetchKline (o : FetchOutcome KlineJson) : Except String KlineRes :=
  match o with
  | .netError e => .error e
  | .response status body =>
    if resOk status then
      match body with
      | .error e => .error e
      | .ok json =>
        match json.data with
        | none => .error klineEmptyMsg
        | some d =>
          match d.klines with
          | none => .error klineEmptyMsg
          | some klines =>
            if klines.length = 0 then .error klineEmptyMsg
            else .ok { name := d.name, list := klines.map parseKlineLine }
    else .error ("K线请求失败: " ++ toString status)

/-! ## JS `Map`/`Set` models (insertion-ordered association lists) -/

def mapGet {K V : Type} [DecidableEq K] : List (K × V) → K → Option V
  | [], _ => none
  | (k', v) :: rest, k => if k' = k then some v else mapGet rest k

/-- JS `Map.prototype.set`: update in place, else append. -/
def mapSet {K V : Type} [DecidableEq K] : List (K × V) → K → V → List (K × V)
  | [], k, v => [(k, v)]
  | (k', v') :: rest, k, v =>
    if k' = k then (k, v) :: rest else (k', v') :: mapSet rest k v

def mapKeys {K V : Type} (m : List (K × V)) : List K :=
  m.map Prod.fst

/-- JS `Set.prototype.add`. -/
def setAdd {K : Type} [DecidableEq K] (s : List K) (k : K) : List K :=
  if k ∈ s then s else s ++ [k]

/-! ## Yearly metrics engine (route.ts 72-173)

Year keys are `Option Int` (`none` is the `NaN` year of an unparsable bar
date; JS `Map`/`Set` keys treat all `NaN` as one key under SameValueZero). -/

/-- One fold step of the first/last-price-per-year scan (route.ts 89-99). -/
def priceMapsStep (maps : List (Option Int × Option ℚ) × List (Option Int × Option ℚ))
    (row : KBar) : List (Option Int × Option ℚ) × List (Option Int × Option ℚ) :=
  let y := jsDateYear row.date
  (if (mapGet maps.1 y).isSome then maps.1 else mapSet maps.1 y row.close,
   mapSet maps.2 y row.close)

def buildPriceMaps (list : List KBar) :
    List (Option Int × Option ℚ) × List (Option Int × Option ℚ) :=
  list.foldl priceMapsStep ([], [])

/-- `byYear` accumulation (route.ts 125-128): sum per year, never
overwrite.  Dividend-event years are always real numbers, so keys are
`Int`. -/
def buildByYear (divs : List DividendEvent) : List (Int × ℚ) :=
  divs.foldl (fun m d => mapSet m d.year ((mapGet m d.year).getD 0 + d.cashPerShare)) []

/-- The `allYears` set (route.ts 131-133): price years then dividend
years, insertion-ordered, deduplicated. -/
def allYearsOf (firstM : List (Option Int × Option ℚ)) (byYear : List (Int × ℚ)) :
    List (Option Int) :=
  ((mapKeys byYear).map some).foldl setAdd ((mapKeys firstM).foldl setAdd [])

/-- The `(a, b) => a - b` comparator on year keys: a `NaN` comparison
counts as equal (the ECMAScript sort treats a `NaN` comparator result
as `0`). -/
def yearLt : Option Int → Option Int → Bool
  | some a, some b => a < b
  | _, _ => false

/-- Stable insertion into a sorted list (earlier-inserted elements stay
first among equals). -/
def insertSorted {α : Type} (lt : α → α → Bool) (x : α) : List α → List α
  | [] => [x]
  | y :: ys => if lt y x then y :: insertSorted lt x ys else x :: y :: ys

/-- Stable sort, modelling `Array.prototype.sort` with a consistent
comparator (and one fixed behaviour for the unreachable `NaN` keys). -/
def sortJs {α : Type} (lt : α → α → Bool) : List α → List α
  | [] => []
  | x :: xs => insertSorted lt x (sortJs lt xs)

/-- JS `Math.round`: half-up (toward `+∞`). -/
def jsRound (q : ℚ) : Int :=
  Int.fdiv (q + 1 / 2).num (q + 1 / 2).den

/-- `Math.round(x * 100) / 100`. -/
def roundTo2 (q : ℚ) : ℚ :=
  (jsRound (q * 100) : ℚ) / 100

structure YearlyDividend where
  year : Option Int
  totalDividend : ℚ
  dividendYieldPercent : ℚ
  growthRatePercent : ℚ
  yearStartPrice : Option ℚ
  yearEndPrice : Option ℚ
deriving DecidableEq

/-- `byYear.get(year) ?? 0` (`byYear` never holds a `NaN` key, so the
`NaN`-year lookup is `undefined`). -/
def totalForYear (byYear : List (Int × ℚ)) (year : Option Int) : ℚ :=
  (match year with
    | some y => mapGet byYear y
    | none => none).getD 0

/-- The loop body of route.ts 136-158 for one year of the axis.  The
`yearEndPrice && yearEndPrice > 0` guard is `0 < e` on a present non-`NaN`
value; the growth guard `yearStartPrice && yearStartPrice > 0 &&
yearEndPrice` additionally needs the end price truthy (present and
non-zero). -/
def yearRecordFor (firstM lastM : List (Option Int × Option ℚ)) (byYear : List (Int × ℚ))
    (year : Option Int) : YearlyDividend :=
  let total : ℚ := totalForYear byYear year
  let yearStartPrice := mapGet firstM year
  let yearEndPrice := mapGet lastM year
  let dividendYieldPercent : ℚ :=
    match yearEndPrice with
    | some (some e) => if 0 < e then total / e * 100 else 0
    | _ => 0
  let growthRatePercent : ℚ :=
    match yearStartPrice, yearEndPrice with
    | some (some s), some (some e) => if 0 < s ∧ e ≠ 0 then (e - s) / s * 100 else 0
    | _, _ => 0
  { year := year
    totalDividend := roundTo2 total
    dividendYieldPercent := roundTo2 dividendYieldPercent
    growthRatePercent := roundTo2 growthRatePercent
    yearStartPrice := (match yearStartPrice with
      | none => some 0
      | some inner => inner).map roundTo2
    yearEndPrice := (match yearEndPrice with
      | none => some 0
      | some inner => inner).map roundTo2 }

/-- The assembled, twice-sorted yearly list (route.ts 135-160). -/
def yearlyDividendsOf (list : List KBar) (dividendList : List DividendEvent) :
    List YearlyDividend :=
  let maps := buildPriceMaps list
  let byYear := buildByYear dividendList
  let recs := (sortJs yearLt (allYearsOf maps.1 byYear)).map
    (yearRecordFor maps.1 maps.2 byYear)
  sortJs (fun a b => yearLt a.year b.year) recs

/-- `years` between first and last bar date, in 365.25-day years
(route.ts 78-80); `none` is `NaN`. -/
def yearsOf (list : List KBar) : Option ℚ :=
  match jsDateMs ((list.getLastD default).date), jsDateMs ((list.headD default).date) with
  | some e, some s => some ((e - s) / ((365.25 : ℚ) * 24 * 60 * 60 * 1000))
  | _, _ => none

/-- The specification's reading of a year's total dividend: the sum of
`cashPerShare` over all events whose `year` matches. -/
def divSumForYear (divs : List DividendEvent) (y : Option Int) : ℚ :=
  match y with
  | some yy => ((divs.filter (fun d => d.year = yy)).map DividendEvent.cashPerShare).sum
  | none => 0

/-- JS `x > 0` on a possibly-`NaN` number. -/
def jsGtZero : Option ℚ → Bool
  | some q => decide (0 < q)
  | none => false

/-! ## CAGR (`Math.pow` over the reals) -/

open Classical in
/-- `Math.pow x y` as a real: `rpow` for non-negative base, integral
exponents keep their usual meaning for a negative base, and a fractional
power of a negative base is `NaN` (`none`).  (`0 ** y` for negative `y`,
an infinity in JS, cannot reach this model: the route guards the base
positive.) -/
noncomputable def jsPow (x y : ℝ) : Option ℝ :=
  if 0 ≤ x then some (x ^ y)
  else if ∃ n : ℤ, (n : ℝ) = y then some (x ^ y)
  else none

/-- `Math.round(x * 100) / 100` over the reals. -/
noncomputable def roundTo2R (x : ℝ) : ℝ :=
  ((⌊x * 100 + 1 / 2⌋ : ℤ) : ℝ) / 100

/-- The whole-series CAGR of route.ts 82-86, as a percentage; `none` is
`NaN` (it arises only when the guard passes but the end price is `NaN`). -/
noncomputable def cagrPercentOf (startPrice endPrice : Option ℚ) (years : Option ℚ) :
    Option ℝ :=
  match years, startPrice with
  | some y, some s =>
    if 0 < y ∧ 0 < s then
      match endPrice with
      | some e => (jsPow ((e : ℝ) / (s : ℝ)) (1 / (y : ℝ))).map (fun p => (p - 1) * 100)
      | none => none
    else some 0
  | _, _ => some 0

/-! ## The analysis result and the route handler (route.ts 39-186) -/

structure StockAnalysisResult where
  symbol : String
  name : Option String
  startDate : String
  endDate : String
  startPrice : Option ℚ
  endPrice : Option ℚ
  years : Option ℚ
  cagrPercent : Option ℝ
  yearlyDividends : List YearlyDividend
  hasDividends : Bool
  error : Option String

/-- `toDateStr` (route.ts 35-37). -/
def toDateStr (s : String) : String :=
  strTake s 10

/-- Assembly of the successful `StockAnalysisResult` (route.ts 72-173)
from the parsed bar list and the aggregated dividend list. -/
noncomputable def buildAnalysis (securityCode : String) (name : Option String)
    (list : List KBar) (dividendList : List DividendEvent) : StockAnalysisResult :=
  let first := list.headD default
  let last := list.getLastD default
  let years := yearsOf list
  let yearly := yearlyDividendsOf list dividendList
  { symbol := securityCode
    name := name
    startDate := toDateStr first.date
    endDate := toDateStr last.date
    startPrice := first.close.map roundTo2
    endPrice := last.close.map roundTo2
    years := years.map roundTo2
    cagrPercent := (cagrPercentOf first.close last.close years).map roundTo2R
    yearlyDividends := yearly
    hasDividends := decide (0 < yearly.length)
    error := none }

/-- The outcome of every outbound call one request can make. -/
structure Env where
  kline : FetchOutcome KlineJson
  datacenter : FetchOutcome DivJson
  f10 : FetchOutcome F10Json
  quote1 : FetchOutcome QuoteText
  quote2 : FetchOutcome QuoteText
  fundPage : FetchOutcome String

/-- The dividend-source fallback chain of the route (route.ts 101-123);
exceptions escaping a source propagate through the `do` bind into the
route's `catch`. -/
def aggregateDividends (env : Env) (securityCode : String) :
    Except String (List DividendEvent) := do
  let fromDatacenter ← fetchDividend env.datacenter
  let dividendList ←
    if fromDatacenter.length > 0 then
      pure (fromDatacenter.map (fun d => ({ year := d.year, cashPerShare := d.cashPerShare } : DividendEvent)))
    else
      fetchDividendF10 env.f10
  if dividendList.length = 0 ∧ isLikelyEtfOrFund securityCode then
    let fromQuote := fetchEtfDividendFromQuote env.quote1 env.quote2
    if fromQuote.length > 0 then pure fromQuote
    else fetchFundDividendFromPage env.fundPage
  else pure dividendList

/-- A route response body: either a bare `{ symbol?, error }` object or a
full analysis result. -/
inductive RespBody where
  | message (symbol : Option String) (error : String)
  | result (r : StockAnalysisResult)

structure HttpResponse where
  status : Nat
  body : RespBody

/-- The `error` field carried by a response body. -/
def bodyError : RespBody → Option String
  | .message _ e => some e
  | .result r => r.error

/-- `hasDividends` of a response body carrying a full result. -/
def bodyHasDividends : RespBody → Option Bool
  | .message _ _ => none
  | .result r => some r.hasDividends

def missingSymbolMsg : String :=
  "请提供股票代码，例如 symbol=600519 或 symbol=000001"

def badSymbolMsg : String :=
  "无法识别的股票代码。请输入 6 位 A 股代码（如 600519、000001）"

def noKlineMsg : String :=
  "未获取到K线数据，请检查股票代码"

def fetchFailPre : String :=
  "获取数据失败："

/-- The `try` block of the route handler (route.ts 59-175); a thrown
error becomes `Except.error` and is turned into a 500 by the wrapper. -/
noncomputable def routeTry (symbol : String) (sec : SecId) (env : Env) :
    Except String HttpResponse := do
  let securityCode := ((splitOnChar sec.secid '.').get? 1).getD symbol
  let kline ← fetchKline env.kline
  let list := kline.list
  if list.length = 0 then
    pure { status := 200, body := .message (some symbol) noKlineMsg }
  else do
    let dividendList ← aggregateDividends env securityCode
    pure { status := 200,
           body := .result (buildAnalysis securityCode kline.name list dividendList) }

/-- `GET /api/stock?symbol=...` (route.ts 39-186). -/
noncomputable def routeGET (symbolQ : Option String) (env : Env) : HttpResponse :=
  let symbol := (symbolQ.map jsTrim).getD ""
  if symbol = "" then { status := 400, body := .message none missingSymbolMsg }
  else
    match toSecId symbol with
    | none => { status := 400, body := .message (some symbol) badSymbolMsg }
    | some sec =>
      match routeTry symbol sec env with
      | .ok resp => resp
      | .error msg => { status := 500, body := .message (some symbol) (fetchFailPre ++ msg) }

/-! ## Concrete request environments and bar lists used as test inputs -/

/-- A price bar with the given date and close (remaining fields equal). -/
def mkBar (date : String) (px : ℚ) : KBar :=
  { date := date, openP := some px, close := some px, high := some px, low := some px,
    volume := 0 }

/-- All sources network-dead except the kline call, which succeeds with an
empty `klines` array. -/
def envEmptyKlines : Env :=
  { kline := .response 200 (.ok { data := some { name := none, klines := some [] } })
    datacenter := .netError "x"
    f10 := .netError "x"
    quote1 := .netError "x"
    quote2 := .netError "x"
    fundPage := .netError "x" }

/-- One good price bar, but the first dividend source's `fetch` rejects. -/
def envDivNetDown : Env :=
  { kline := .response 200 (.ok
      { data := some { name := none, klines := some ["2020-01-02,10,10,10,10,1000"] } })
    datacenter := .netError "network down"
    f10 := .netError "x"
    quote1 := .netError "x"
    quote2 := .netError "x"
    fundPage := .netError "x" }

/-- One good price bar; every dividend source answers with a non-success
status (all four yield no events, none raises). -/
def envAllDivEmpty : Env :=
  { kline := .response 200 (.ok
      { data := some { name := none, klines := some ["2020-01-02,10,10,10,10,1000"] } })
    datacenter := .response 404 (.ok { data := none })
    f10 := .response 404 (.ok { fhyx := none, dataSgbhData := none, sgbh := none })
    quote1 := .response 404 (.ok .unparsable)
    quote2 := .response 404 (.ok .unparsable)
    fundPage := .response 404 (.ok "") }

/-- A data-center dividend row whose ex-date parses to the year 1800. -/
def divRow1800 : DividendRow :=
  { CASH_PER_SHARE := some (.str "1.0"), cashPerShare := none,
    EX_DIVIDEND_DATE := some "1800-01-01", exDividendDate := none, REPORT_DATE := none }

/-- Single-year series: first close 10, last close 12. -/
def barsUp : List KBar :=
  [mkBar "2020-01-02" 10, mkBar "2020-12-30" 12]

/-- Single-year series whose last close is exactly 0. -/
def barsEndZero : List KBar :=
  [mkBar "2020-01-02" 10, mkBar "2020-06-30" 0]

/-- Two bars one year apart with equal closes. -/
def barsFlat : List KBar :=
  [mkBar "2020-01-02" 10, mkBar "2021-01-04" 10]

/-- The single yearly record produced for `barsUp` with 0.5 of dividends
in 2020: growth `(12−10)/10×100 = 20.00`, yield `0.5/12×100 ≈ 4.17`. -/
def recUp : YearlyDividend :=
  { year := some 2020, totalDividend := 1 / 2, dividendYieldPercent := 417 / 100,
    growthRatePercent := 20, yearStartPrice := some 10, yearEndPrice := some 12 }

/-- Two dividend events in the same year, 0.25 each. -/
def divsTwo : List DividendEvent :=
  [⟨2020, 1 / 4⟩, ⟨2020, 1 / 4⟩]

/-- A well-formed F10 `fhyx` row: profile `10派3.75元`, ex-date 2020-06-30. -/
def f10RowGood : F10FhyxRow :=
  { IMPL_PLAN_PROFILE := some "10派3.75元", EX_DIVIDEND_DATE := some "2020-06-30",
    NOTICE_DATE := none }

def f10JsonGood : F10Json :=
  { fhyx := some [f10RowGood], dataSgbhData := none, sgbh := none }

end StockAnalysis

namespace StockAnalysis

/-! ## Shared lemmas about the map/set/sort models -/

theorem mapGet_mapSet {K V : Type} [DecidableEq K] (m : List (K × V)) (k k' : K) (v : V) :
    mapGet (mapSet m k v) k' = if k = k' then some v else mapGet m k' := by
  induction m with
  | nil => simp [mapSet, mapGet]
  | cons p rest ih =>
    obtain ⟨a, b⟩ := p
    by_cases hak : a = k
    · subst hak
      simp only [mapSet, if_pos rfl, mapGet]
      split_ifs <;> simp_all [mapGet]
    · simp only [mapSet, if_neg hak, mapGet]
      split_ifs <;> simp_all [mapGet]

theorem mapKeys_cons {K V : Type} (p : K × V) (l : List (K × V)) :
    mapKeys (p :: l) = p.1 :: mapKeys l := rfl

theorem mapGet_isSome_iff {K V : Type} [DecidableEq K] (m : List (K × V)) (k : K) :
    (mapGet m k).isSome = true ↔ k ∈ mapKeys m := by
  induction m with
  | nil => simp [mapGet, mapKeys]
  | cons p rest ih =>
    obtain ⟨a, b⟩ := p
    by_cases hak : a = k
    · subst hak
      simp [mapGet, mapKeys_cons]
    · simp only [mapGet, if_neg hak, mapKeys_cons, List.mem_cons, ih]
      constructor
      · exact fun h => Or.inr h
      · rintro (rfl | h)
        · exact absurd rfl hak
        · exact h

theorem mem_mapKeys_mapSet {K V : Type} [DecidableEq K] (m : List (K × V)) (k a : K) (v : V) :
    a ∈ mapKeys (mapSet m k v) ↔ a ∈ mapKeys m ∨ a = k := by
  induction m with
  | nil => simp [mapSet, mapKeys]
  | cons p rest ih =>
    obtain ⟨b, c⟩ := p
    by_cases hbk : b = k
    · subst hbk
      have hset : mapSet ((b, c) :: rest) b v = (b, v) :: rest := by simp [mapSet]
      rw [hset, mapKeys_cons, mapKeys_cons]
      simp only [List.mem_cons]
      tauto
    · have hset : mapSet ((b, c) :: rest) k v = (b, c) :: mapSet rest k v := by
        simp [mapSet, hbk]
      rw [hset, mapKeys_cons, mapKeys_cons]
      simp only [List.mem_cons, ih]
      tauto

theorem mapSet_ne_nil {K V : Type} [DecidableEq K] (m : List (K × V)) (k : K) (v : V) :
    mapSet m k v ≠ [] := by
  cases m with
  | nil => simp [mapSet]
  | cons p rest =>
    obtain ⟨a, b⟩ := p
    simp only [mapSet]
    split_ifs <;> simp

theorem byYear_fold_get (divs : List DividendEvent) (m : List (Int × ℚ)) (yy : Int) :
    (mapGet (divs.foldl
      (fun m d => mapSet m d.year ((mapGet m d.year).getD 0 + d.cashPerShare)) m) yy).getD 0
      = (mapGet m yy).getD 0
        + ((divs.filter (fun d => d.year = yy)).map DividendEvent.cashPerShare).sum := by
  induction divs generalizing m with
  | nil => simp
  | cons d rest ih =>
    by_cases hdy : d.year = yy
    · subst hdy
      simp only [List.foldl_cons, List.filter_cons]
      rw [ih, mapGet_mapSet, if_pos rfl]
      simp
      ring
    · simp only [List.foldl_cons, List.filter_cons]
      rw [ih, mapGet_mapSet, if_neg hdy]
      simp [hdy]

theorem totalForYear_buildByYear (divs : List DividendEvent) (y : Option Int) :
    totalForYear (buildByYear divs) y = divSumForYear divs y := by
  cases y with
  | none => rfl
  | some yy =>
    have h := byYear_fold_get divs [] yy
    simpa [totalForYear, buildByYear, divSumForYear, mapGet] using h

theorem insertSorted_perm {α : Type} (lt : α → α → Bool) (x : α) (l : List α) :
    (insertSorted lt x l).Perm (x :: l) := by
  induction l with
  | nil => exact List.Perm.refl _
  | cons y ys ih =>
    simp only [insertSorted]
    split_ifs
    · exact (ih.cons y).trans (List.Perm.swap x y ys)
    · exact List.Perm.refl _

theorem sortJs_perm {α : Type} (lt : α → α → Bool) (l : List α) :
    (sortJs lt l).Perm l := by
  induction l with
  | nil => exact List.Perm.refl _
  | cons x xs ih =>
    exact (insertSorted_perm lt x (sortJs lt xs)).trans (ih.cons x)

theorem mem_setAdd {K : Type} [DecidableEq K] (s : List K) (k a : K) :
    a ∈ setAdd s k ↔ a ∈ s ∨ a = k := by
  unfold setAdd
  split_ifs with h
  · constructor
    · tauto
    · rintro (ha | rfl) <;> [exact ha; exact h]
  · simp

theorem mem_foldl_setAdd {K : Type} [DecidableEq K] (l : List K) (s : List K) (a : K) :
    a ∈ l.foldl setAdd s ↔ a ∈ s ∨ a ∈ l := by
  induction l generalizing s with
  | nil => simp
  | cons k rest ih =>
    simp only [List.foldl_cons, ih, mem_setAdd, List.mem_cons]
    tauto

theorem nodup_setAdd {K : Type} [DecidableEq K] (s : List K) (k : K) (h : s.Nodup) :
    (setAdd s k).Nodup := by
  unfold setAdd
  split_ifs with hk
  · exact h
  · simp [List.nodup_append, h, hk]

theorem nodup_foldl_setAdd {K : Type} [DecidableEq K] (l : List K) (s : List K)
    (h : s.Nodup) : (l.foldl setAdd s).Nodup := by
  induction l generalizing s with
  | nil => exact h
  | cons k rest ih => exact ih _ (nodup_setAdd s k h)

theorem foldl_setAdd_ne_nil {K : Type} [DecidableEq K] (l : List K) (s : List K)
    (h : s ≠ []) : l.foldl setAdd s ≠ [] := by
  induction l generalizing s with
  | nil => exact h
  | cons k rest ih =>
    refine ih _ ?_
    unfold setAdd
    split_ifs
    · exact h
    · simp

theorem mem_keys_priceMapsStep
    (acc : List (Option Int × Option ℚ) × List (Option Int × Option ℚ)) (bar : KBar)
    (a : Option Int) :
    a ∈ mapKeys (priceMapsStep acc bar).1 ↔
      a ∈ mapKeys acc.1 ∨ a = jsDateYear bar.date := by
  unfold priceMapsStep
  dsimp only
  split_ifs with h
  · have hy := (mapGet_isSome_iff acc.1 (jsDateYear bar.date)).mp h
    constructor
    · tauto
    · rintro (ha | rfl) <;> [exact ha; exact hy]
  · exact mem_mapKeys_mapSet acc.1 (jsDateYear bar.date) a bar.close

theorem mem_keys_priceMaps_fold (list : List KBar)
    (acc : List (Option Int × Option ℚ) × List (Option Int × Option ℚ)) (a : Option Int) :
    a ∈ mapKeys (list.foldl priceMapsStep acc).1 ↔
      a ∈ mapKeys acc.1 ∨ ∃ b ∈ list, jsDateYear b.date = a := by
  induction list generalizing acc with
  | nil => simp
  | cons bar rest ih =>
    simp only [List.foldl_cons, ih, mem_keys_priceMapsStep, List.mem_cons]
    constructor
    · rintro ((ha | rfl) | ⟨b, hb, rfl⟩)
      · exact Or.inl ha
      · exact Or.inr ⟨bar, Or.inl rfl, rfl⟩
      · exact Or.inr ⟨b, Or.inr hb, rfl⟩
    · rintro (ha | ⟨b, hb | hb, rfl⟩)
      · exact Or.inl (Or.inl ha)
      · exact Or.inl (Or.inr (by rw [hb]))
      · exact Or.inr ⟨b, hb, rfl⟩

theorem mem_firstPrice_keys (list : List KBar) (a : Option Int) :
    a ∈ mapKeys (buildPriceMaps list).1 ↔ ∃ b ∈ list, jsDateYear b.date = a := by
  have h := mem_keys_priceMaps_fold list ([], []) a
  simpa [buildPriceMaps, mapKeys] using h

theorem mem_allYearsOf (firstM : List (Option Int × Option ℚ)) (byYear : List (Int × ℚ))
    (a : Option Int) :
    a ∈ allYearsOf firstM byYear ↔
      a ∈ mapKeys firstM ∨ a ∈ (mapKeys byYear).map some := by
  unfold allYearsOf
  rw [mem_foldl_setAdd, mem_foldl_setAdd]
  simp

theorem nodup_allYearsOf (firstM : List (Option Int × Option ℚ))
    (byYear : List (Int × ℚ)) : (allYearsOf firstM byYear).Nodup :=
  nodup_foldl_setAdd _ _ (nodup_foldl_setAdd _ _ List.nodup_nil)

theorem mem_yearlyDividendsOf (list : List KBar) (divs : List DividendEvent)
    (rec : YearlyDividend) :
    rec ∈ yearlyDividendsOf list divs ↔
      ∃ y ∈ allYearsOf (buildPriceMaps list).1 (buildByYear divs),
        rec = yearRecordFor (buildPriceMaps list).1 (buildPriceMaps list).2
          (buildByYear divs) y := by
  unfold yearlyDividendsOf
  rw [(sortJs_perm _ _).mem_iff, List.mem_map]
  constructor
  · rintro ⟨y, hy, rfl⟩
    exact ⟨y, (sortJs_perm _ _).mem_iff.mp hy, rfl⟩
  · rintro ⟨y, hy, rfl⟩
    exact ⟨y, (sortJs_perm _ _).mem_iff.mpr hy, rfl⟩

theorem filter_map_eq {α β : Type} (f : α → β) (p : β → Bool) (l : List α) :
    (l.map f).filter p = (l.filter (fun a => p (f a))).map f := by
  induction l with
  | nil => rfl
  | cons a rest ih =>
    simp only [List.map_cons, List.filter_cons]
    split_ifs <;> simp_all

theorem filter_eq_self_length_one {α : Type} [DecidableEq α] (l : List α) (a : α)
    (hnd : l.Nodup) (hm : a ∈ l) :
    (l.filter (fun x => x = a)).length = 1 := by
  induction l with
  | nil => cases hm
  | cons b rest ih =>
    rw [List.filter_cons]
    by_cases hba : b = a
    · subst hba
      have ha : b ∉ rest := (List.nodup_cons.mp hnd).1
      have hrest : rest.filter (fun x => x = b) = [] := by
        refine List.filter_eq_nil_iff.mpr (fun x hx => ?_)
        simp only [decide_eq_true_eq]
        rintro rfl
        exact ha hx
      simp [hrest]
    · have hm' : a ∈ rest := by
        rcases List.mem_cons.mp hm with h | h
        · exact absurd h.symm hba
        · exact h
      rw [if_neg (by simp [hba])]
      exact ih (List.nodup_cons.mp hnd).2 hm'

theorem roundTo2_zero : roundTo2 0 = 0 := by with_unfolding_all rfl

theorem roundTo2R_zero : roundTo2R 0 = 0 := by
  unfold roundTo2R
  rw [show ((0 : ℝ) * 100 + 1 / 2) = 1 / 2 by ring]
  rw [show ⌊(1 / 2 : ℝ)⌋ = 0 from Int.floor_eq_zero_iff.mpr (by constructor <;> norm_num)]
  norm_num

/-- C1: the ticker resolver strips whitespace, accepts exactly six ASCII
digits, and classifies first-match-wins exactly as the specification
states; in particular `"600519" ↦ 1.600519` (Exchange A),
`"000001" ↦ 0.000001` (Exchange B), `"512345"` resolves to Exchange A, and
`"abc123"` fails. -/
theorem c1_toSecId_matches_spec :
    (∀ s : String, toSecId s = toSecIdSpec s) ∧
    toSecId "600519" = some ⟨"1.600519", .sh⟩ ∧
    toSecId "000001" = some ⟨"0.000001", .sz⟩ ∧
    (toSecId "512345").map SecId.market = some .sh ∧
    toSecId "abc123" = none := by
  refine ⟨fun s => ?_, by decide, by decide, by decide, by decide⟩
  unfold toSecId toSecIdSpec
  dsimp only
  split_ifs <;> first | rfl | tauto

/-- C2 (counterexample): with a successful HTTP status and an empty parsed
bar list, the endpoint answers 500, not 200 — `fetchKline` throws on empty
`klines`, so the route's 200-with-error branch is never reached. -/
theorem c2_counterexample :
    (routeGET (some "600519") envEmptyKlines).status = 500 ∧
    (routeGET (some "600519") envEmptyKlines).status ≠ 200 := by
  exact ⟨by decide, by decide⟩

/-- C2 (amended): when the price-history fetch completes with a successful
HTTP status but the parsed bar list is empty, the endpoint responds with
HTTP status 500 whose body carries an error field (wrapping the thrown
no-data message). -/
theorem c2_empty_klines_gives_500 (symbolQ : String) (sec : SecId) (env : Env)
    (status : Nat) (nm : Option String)
    (hsec : toSecId (jsTrim symbolQ) = some sec)
    (hok : resOk status = true)
    (hk : env.kline = FetchOutcome.response status
      (.ok { data := some { name := nm, klines := some [] } })) :
    (routeGET (some symbolQ) env).status = 500 ∧
    bodyError (routeGET (some symbolQ) env).body = some (fetchFailPre ++ klineEmptyMsg) := by
  have hne : jsTrim symbolQ ≠ "" := by
    intro h
    rw [h] at hsec
    have hnone : toSecId "" = none := by decide
    rw [hnone] at hsec
    cases hsec
  have htry : routeTry (jsTrim symbolQ) sec env = .error klineEmptyMsg := by
    unfold routeTry
    rw [hk]
    show (fetchKline (.response status (.ok { data := some { name := nm, klines := some [] } }))).bind _ = _
    simp [fetchKline, hok, Except.bind]
  unfold routeGET
  dsimp only [Option.map, Option.getD]
  rw [if_neg hne, hsec]
  dsimp only
  rw [htry]
  exact ⟨rfl, rfl⟩

/-- C2 (witness for the amended theorem). -/
theorem c2_empty_klines_gives_500_witness :
    toSecId (jsTrim "600519") = some ⟨"1.600519", .sh⟩ ∧
    resOk 200 = true ∧
    (routeGET (some "600519") envEmptyKlines).status = 500 ∧
    bodyError (routeGET (some "600519") envEmptyKlines).body
      = some (fetchFailPre ++ klineEmptyMsg) := by
  have h := c2_empty_klines_gives_500 "600519" ⟨"1.600519", .sh⟩ envEmptyKlines 200 none
    (by decide) (by decide) rfl
  exact ⟨by decide, by decide, h.1, h.2⟩

/-- C3 (counterexample): a rejected `fetch` in the first dividend source
propagates out of the aggregation step and the endpoint answers 500 — the
dividend chain is not exception-free. -/
theorem c3_counterexample :
    aggregateDividends envDivNetDown "600519" = .error "network down" ∧
    (routeGET (some "600519") envDivNetDown).status = 500 :=
  ⟨rfl, rfl⟩

/-- C3 (amended): each dividend source absorbs a non-success HTTP status as
zero results, and the quote source absorbs even rejected fetches; but a
rejected `fetch` (or a throwing body read) in `fetchDividend`,
`fetchDividendF10` or `fetchFundDividendFromPage` propagates to the caller
as an exception. -/
theorem c3_absorb_and_propagate (st : Nat) (h : resOk st = false)
    (b1 : Except String DivJson) (b2 : Except String F10Json)
    (bq : Except String QuoteText) (b4 : Except String String) (e : String) :
    fetchDividend (.response st b1) = .ok [] ∧
    fetchDividendF10 (.response st b2) = .ok [] ∧
    fetchFundDividendFromPage (.response st b4) = .ok [] ∧
    quoteTryOne (.response st bq) = [] ∧
    fetchDividend (.netError e) = .error e ∧
    fetchDividendF10 (.netError e) = .error e ∧
    fetchFundDividendFromPage (.netError e) = .error e ∧
    fetchEtfDividendFromQuote (.netError e) (.netError e) = [] := by
  refine ⟨?_, ?_, ?_, ?_, rfl, rfl, rfl, ?_⟩
  · simp [fetchDividend, h]
  · simp [fetchDividendF10, h]
  · simp [fetchFundDividendFromPage, h]
  · simp [quoteTryOne, h]
  · rfl

/-- C3 (witness for the amended theorem). -/
theorem c3_absorb_and_propagate_witness :
    resOk 404 = false ∧
    fetchDividend (.response 404 (.ok { data := none })) = .ok [] ∧
    fetchDividend (.netError "boom") = .error "boom" := by
  have h := c3_absorb_and_propagate 404 (by decide) (.ok { data := none })
    (.ok { fhyx := none, dataSgbhData := none, sgbh := none }) (.ok .unparsable) (.ok "")
    "boom"
  exact ⟨by decide, h.1, h.2.2.2.2.1⟩

/-- C4 (counterexample): with every dividend source yielding no events the
aggregated sequence is empty, yet `hasDividends` is `true` (not `false`):
it reports whether the yearly table is non-empty, and price years alone
populate that table. -/
theorem c4_counterexample :
    aggregateDividends envAllDivEmpty "600519" = .ok [] ∧
    bodyHasDividends (routeGET (some "600519") envAllDivEmpty).body = some true :=
  ⟨rfl, by decide⟩

/-- C5 (counterexample): the data-center source (`fetchDividend`) applies
no year-range filter — an ex-date in the year 1800 produces an event whose
year lies outside (1990, 2100). -/
theorem c5_counterexample :
    fetchDividend (.response 200 (.ok { data := some (.arr [divRow1800]) }))
      = .ok [⟨1800, 1, "1800-01-01"⟩] ∧
    ¬ (1990 < (1800 : ℤ) ∧ (1800 : ℤ) < 2100) :=
  ⟨by with_unfolding_all rfl, by decide⟩

/-- C6: the profile-text parser maps `"10派3.75元"` to `0.375` per share
(a matched amount `X` decodes as `X/10`), and any input containing the
no-distribution marker `不分配` produces no event; in particular
`"10派0不分配"` yields none. -/
theorem c6_profile_decoder :
    parseCashPerShareFromProfile "10派3.75元" = some (3 / 8) ∧
    (∀ s : String, containsSub s "不分配" = true → parseCashPerShareFromProfile s = none) ∧
    parseCashPerShareFromProfile "10派0不分配" = none := by
  refine ⟨by with_unfolding_all decide, fun s h => ?_, by with_unfolding_all decide⟩
  unfold parseCashPerShareFromProfile
  rw [if_pos (Or.inr (Or.inl h))]

/-- C6 (witness for the no-distribution clause). -/
theorem c6_profile_decoder_witness :
    containsSub "10派0不分配" "不分配" = true ∧
    parseCashPerShareFromProfile "10派0不分配" = none :=
  ⟨by decide, c6_profile_decoder.2.1 "10派0不分配" (by decide)⟩


/-! ## Helpers shared by the yearly-metrics claims -/

theorem yearlyDividendsOf_eq (list : List KBar) (divs : List DividendEvent) :
    yearlyDividendsOf list divs
      = sortJs (fun a b => yearLt a.year b.year)
          ((sortJs yearLt (allYearsOf (buildPriceMaps list).1 (buildByYear divs))).map
            (yearRecordFor (buildPriceMaps list).1 (buildPriceMaps list).2
              (buildByYear divs))) := rfl

theorem totalDividend_eq_sum (list : List KBar) (divs : List DividendEvent)
    (rec : YearlyDividend) (hrec : rec ∈ yearlyDividendsOf list divs) :
    rec.totalDividend = roundTo2 (divSumForYear divs rec.year) := by
  obtain ⟨y, hy, rfl⟩ := (mem_yearlyDividendsOf list divs rec).mp hrec
  show roundTo2 (totalForYear (buildByYear divs) y) = _
  rw [totalForYear_buildByYear]
  rfl

theorem divSumForYear_nil (y : Option Int) : divSumForYear [] y = 0 := by
  cases y <;> rfl

theorem yearlyDividendsOf_length (list : List KBar) (divs : List DividendEvent) :
    (yearlyDividendsOf list divs).length
      = (allYearsOf (buildPriceMaps list).1 (buildByYear divs)).length := by
  rw [yearlyDividendsOf_eq, (sortJs_perm _ _).length_eq, List.length_map,
    (sortJs_perm _ _).length_eq]

theorem allYearsOf_ne_nil (list : List KBar) (divs : List DividendEvent)
    (h : list ≠ []) :
    allYearsOf (buildPriceMaps list).1 (buildByYear divs) ≠ [] := by
  cases list with
  | nil => exact absurd rfl h
  | cons b rest =>
    have hmem : jsDateYear b.date ∈ mapKeys (buildPriceMaps (b :: rest)).1 :=
      (mem_firstPrice_keys _ _).mpr ⟨b, List.mem_cons_self b rest, rfl⟩
    exact List.ne_nil_of_mem ((mem_allYearsOf _ _ _).mpr (Or.inl hmem))

theorem yearlyDividendsOf_ne_nil (list : List KBar) (divs : List DividendEvent)
    (h : list ≠ []) : yearlyDividendsOf list divs ≠ [] := by
  have h1 := yearlyDividendsOf_length list divs
  have h2 : 0 < (allYearsOf (buildPriceMaps list).1 (buildByYear divs)).length :=
    List.length_pos.mpr (allYearsOf_ne_nil list divs h)
  intro hnil
  rw [hnil] at h1
  rw [← h1] at h2
  exact absurd h2 (by simp)

theorem hasDividends_true (code : String) (nm : Option String) (list : List KBar)
    (divs : List DividendEvent) (h : list ≠ []) :
    (buildAnalysis code nm list divs).hasDividends = true := by
  show decide (0 < (yearlyDividendsOf list divs).length) = true
  exact decide_eq_true (List.length_pos.mpr (yearlyDividendsOf_ne_nil list divs h))

theorem filter_year_length_one (list : List KBar) (divs : List DividendEvent) (y : Int)
    (hmem : ∃ b ∈ list, jsDateYear b.date = some y) :
    ((yearlyDividendsOf list divs).filter (fun r => r.year = some y)).length = 1 := by
  have hy : some y ∈ allYearsOf (buildPriceMaps list).1 (buildByYear divs) :=
    (mem_allYearsOf _ _ _).mpr (Or.inl ((mem_firstPrice_keys list _).mpr hmem))
  have hnd := nodup_allYearsOf (buildPriceMaps list).1 (buildByYear divs)
  rw [yearlyDividendsOf_eq, ((sortJs_perm _ _).filter _).length_eq, filter_map_eq,
    List.length_map]
  show ((sortJs yearLt (allYearsOf (buildPriceMaps list).1 (buildByYear divs))).filter
    (fun a => a = some y)).length = 1
  rw [((sortJs_perm _ _).filter _).length_eq]
  exact filter_eq_self_length_one _ (some y) hnd hy

set_option maxRecDepth 40000 in
/-- C7 (counterexample): in a year whose start price is positive but whose
last close is exactly 0, the code reports `growthRatePercent = 0`, while
the claimed formula `(end − start)/start × 100` gives `−100`. -/
theorem c7_counterexample :
    (yearlyDividendsOf barsEndZero []).map (fun r => r.growthRatePercent) = [0] ∧
    (yearlyDividendsOf barsEndZero []).map (fun r => r.yearStartPrice) = [some 10] ∧
    (yearlyDividendsOf barsEndZero []).map (fun r => r.yearEndPrice) = [some 0] ∧
    roundTo2 (((0 : ℚ) - 10) / 10 * 100) = -100 ∧ ((0 : ℚ) ≠ -100) := by
  refine ⟨?_, ?_, ?_, ?_, by norm_num⟩ <;> with_unfolding_all decide

set_option maxRecDepth 40000 in
/-- C7 (amended): for every year on the axis,
`dividendYieldPercent = totalDividend/yearEndPrice × 100` (0 when the
year's end price is missing or ≤ 0) and
`growthRatePercent = (yearEndPrice − yearStartPrice)/yearStartPrice × 100`
(0 when the year's start price is missing or ≤ 0, and also when the year's
end price is missing, `NaN`, or exactly 0), both rounded to 2 decimals at
assembly; the single-year example (start 10, end 12, dividend 0.5) yields
20.00 and 4.17. -/
theorem c7_percent_formulas :
    (∀ (list : List KBar) (divs : List DividendEvent) (rec : YearlyDividend),
      rec ∈ yearlyDividendsOf list divs →
        rec.dividendYieldPercent
          = roundTo2 (match mapGet (buildPriceMaps list).2 rec.year with
            | some (some e) =>
              if 0 < e then totalForYear (buildByYear divs) rec.year / e * 100 else 0
            | _ => 0) ∧
        rec.growthRatePercent
          = roundTo2 (match mapGet (buildPriceMaps list).1 rec.year,
              mapGet (buildPriceMaps list).2 rec.year with
            | some (some s), some (some e) =>
              if 0 < s ∧ e ≠ 0 then (e - s) / s * 100 else 0
            | _, _ => 0)) ∧
    yearlyDividendsOf barsUp [⟨2020, 1 / 2⟩] = [recUp] := by
  constructor
  · intro list divs rec hrec
    obtain ⟨y, hy, rfl⟩ := (mem_yearlyDividendsOf list divs rec).mp hrec
    exact ⟨rfl, rfl⟩
  · with_unfolding_all decide

set_option maxRecDepth 40000 in
/-- C7 (witness for the amended theorem). -/
theorem c7_percent_formulas_witness :
    recUp ∈ yearlyDividendsOf barsUp [⟨2020, 1 / 2⟩] ∧
    recUp.dividendYieldPercent
      = roundTo2 (match mapGet (buildPriceMaps barsUp).2 recUp.year with
        | some (some e) =>
          if 0 < e then totalForYear (buildByYear [⟨2020, 1 / 2⟩]) recUp.year / e * 100 else 0
        | _ => 0) :=
  ⟨by with_unfolding_all decide,
   (c7_percent_formulas.1 barsUp [⟨2020, 1 / 2⟩] recUp (by with_unfolding_all decide)).1⟩

/-- C8: whenever the first and last closes of the series agree and the
series span is positive, the whole-series `cagrPercent` is 0 (the rounded
percentage of `(e/s)^(1/years) − 1` with `e = s`, or the guard fallback
when the shared price is not positive). -/
theorem c8_cagr_zero_when_flat (code : String) (nm : Option String) (list : List KBar)
    (divs : List DividendEvent)
    (hclose : (list.headD default).close = (list.getLastD default).close)
    (hyears : jsGtZero (yearsOf list) = true) :
    (buildAnalysis code nm list divs).cagrPercent = some 0 := by
  obtain ⟨yv, hy, hypos⟩ : ∃ yv, yearsOf list = some yv ∧ 0 < yv := by
    cases hys : yearsOf list with
    | none => rw [hys] at hyears; exact absurd hyears (by simp [jsGtZero])
    | some yv =>
      rw [hys] at hyears
      exact ⟨yv, rfl, by simpa [jsGtZero] using hyears⟩
  show (cagrPercentOf (list.headD default).close (list.getLastD default).close
      (yearsOf list)).map roundTo2R = some 0
  rw [← hclose, hy]
  cases hs : (list.headD default).close with
  | none => simp [cagrPercentOf, roundTo2R_zero]
  | some s =>
    by_cases hsp : 0 < s
    · have hcast : ((s : ℝ)) ≠ 0 := ne_of_gt (by exact_mod_cast hsp)
      simp only [cagrPercentOf, if_pos (And.intro hypos hsp)]
      rw [div_self hcast]
      simp [jsPow, Real.one_rpow, roundTo2R_zero]
    · simp [cagrPercentOf, hsp, roundTo2R_zero]

set_option maxRecDepth 40000 in
/-- C8 (witness): a two-bar series with equal closes one year apart. -/
theorem c8_cagr_zero_when_flat_witness :
    (barsFlat.headD default).close = (barsFlat.getLastD default).close ∧
    jsGtZero (yearsOf barsFlat) = true ∧
    (buildAnalysis "600519" none barsFlat []).cagrPercent = some 0 :=
  ⟨rfl, by with_unfolding_all decide,
   c8_cagr_zero_when_flat "600519" none barsFlat [] rfl (by with_unfolding_all decide)⟩

/-- C9: every assembled yearly record's `totalDividend` is the sum of
`cashPerShare` over all dividend events whose year matches (rounded to two
decimals at assembly) — events in the same year accumulate, never
overwrite. -/
theorem c9_totalDividend_sums :
    ∀ (list : List KBar) (divs : List DividendEvent) (rec : YearlyDividend),
      rec ∈ yearlyDividendsOf list divs →
      rec.totalDividend = roundTo2 (divSumForYear divs rec.year) :=
  totalDividend_eq_sum

set_option maxRecDepth 40000 in
/-- C9 (witness): two 0.25 events in 2020 sum to a 0.5 total. -/
theorem c9_totalDividend_sums_witness :
    recUp ∈ yearlyDividendsOf barsUp divsTwo ∧
    recUp.totalDividend = roundTo2 (divSumForYear divsTwo recUp.year) :=
  ⟨by with_unfolding_all decide,
   c9_totalDividend_sums barsUp divsTwo recUp (by with_unfolding_all decide)⟩

/-- C10: for every successful analysis (non-empty bar list) there is
exactly one yearly record per distinct calendar year of the price bars;
with an empty dividend sequence every record's total is 0; and the yearly
table is non-empty, so `hasDividends` is `true` whenever price data
exists. -/
theorem c10_year_axis (code : String) (nm : Option String) :
    ∀ (list : List KBar) (divs : List DividendEvent), list ≠ [] →
      (∀ y : Int, (∃ b ∈ list, jsDateYear b.date = some y) →
        (((buildAnalysis code nm list divs).yearlyDividends.filter
          (fun r => r.year = some y)).length = 1)) ∧
      (divs = [] → ∀ rec ∈ (buildAnalysis code nm list divs).yearlyDividends,
        rec.totalDividend = 0) ∧
      (buildAnalysis code nm list divs).yearlyDividends ≠ [] ∧
      (buildAnalysis code nm list divs).hasDividends = true := by
  intro list divs h
  refine ⟨?_, ?_, ?_, hasDividends_true code nm list divs h⟩
  · intro y hmem
    exact filter_year_length_one list divs y hmem
  · rintro rfl rec hrec
    rw [totalDividend_eq_sum list [] rec hrec, divSumForYear_nil, roundTo2_zero]
  · exact yearlyDividendsOf_ne_nil list divs h

/-- C10 (witness). -/
theorem c10_year_axis_witness :
    barsUp ≠ [] ∧ (∃ b ∈ barsUp, jsDateYear b.date = some 2020) ∧
    (((buildAnalysis "600519" none barsUp []).yearlyDividends.filter
      (fun r => r.year = some 2020)).length = 1) ∧
    (buildAnalysis "600519" none barsUp []).hasDividends = true := by
  have h := c10_year_axis "600519" none barsUp [] (by decide)
  exact ⟨by decide, by decide, h.1 2020 (by decide), h.2.2.2⟩

/-- C4 (amended): if all four dividend sources yield no events, every
yearly record's `totalDividend` is 0 — but `hasDividends` reports whether
the yearly table is non-empty, which holds whenever price data exists. -/
theorem c4_empty_dividends (code : String) (nm : Option String) (list : List KBar)
    (h : list ≠ []) :
    (∀ rec ∈ (buildAnalysis code nm list []).yearlyDividends, rec.totalDividend = 0) ∧
    (buildAnalysis code nm list []).hasDividends = true := by
  constructor
  · intro rec hrec
    rw [totalDividend_eq_sum list [] rec hrec, divSumForYear_nil, roundTo2_zero]
  · exact hasDividends_true code nm list [] h

/-- C4 (witness for the amended theorem). -/
theorem c4_empty_dividends_witness :
    barsUp ≠ [] ∧
    (∀ rec ∈ (buildAnalysis "600519" none barsUp []).yearlyDividends,
      rec.totalDividend = 0) ∧
    (buildAnalysis "600519" none barsUp []).hasDividends = true := by
  have h := c4_empty_dividends "600519" none barsUp (by decide)
  exact ⟨by decide, h.1, h.2⟩


/-! ## Per-source event bounds (claim C5) -/

theorem dividendRowEvent_pos (r : DividendRow) (e : DividendEventEx)
    (h : dividendRowEvent r = some e) : 0 < e.cashPerShare := by
  unfold dividendRowEvent at h
  dsimp only at h
  split at h
  · cases h
  · split at h
    · cases h
    · rename_i c hc
      split at h
      · cases h
      · rename_i num hnum
        split at h
        · cases h
        · rename_i hle
          split at h
          · cases h
          · rename_i year hyear
            injection h with h
            subst h
            exact lt_of_not_le hle

theorem parseCashPerShareFromProfile_pos (p : String) (c : ℚ)
    (h : parseCashPerShareFromProfile p = some c) : 0 < c := by
  unfold parseCashPerShareFromProfile at h
  split at h
  · cases h
  · split at h
    · cases h
    · rename_i cap hcap
      dsimp only at h
      split at h
      · cases h
      · rename_i hle
        injection h with h
        subst h
        exact div_pos (lt_of_not_le hle) (by norm_num)

theorem fhyxRowEvent_bounds (row : F10FhyxRow) (e : DividendEvent)
    (h : fhyxRowEvent row = some e) :
    0 < e.cashPerShare ∧ 1990 < e.year ∧ e.year < 2100 := by
  unfold fhyxRowEvent at h
  dsimp only at h
  split at h
  · cases h
  · rename_i cash hparse
    split at h
    · cases h
    · split at h
      · rename_i year hyear
        split at h
        · rename_i hrange
          injection h with h
          subst h
          exact ⟨parseCashPerShareFromProfile_pos _ _ hparse, hrange.1, hrange.2⟩
        · cases h
      · cases h

theorem sgbhRowEvent_bounds (row : SgbhRow) (e : DividendEvent)
    (h : sgbhRowEvent row = some e) :
    0 < e.cashPerShare ∧ 1990 < e.year ∧ e.year < 2100 := by
  unfold sgbhRowEvent at h
  split at h
  · cases h
  · rename_i pay hpay
    split at h
    · cases h
    · rename_i num hnum
      split at h
      · cases h
      · rename_i hle
        split at h
        · rename_i year hyear
          split at h
          · rename_i hrange
            injection h with h
            subst h
            exact ⟨lt_of_not_le hle, hrange.1, hrange.2⟩
          · cases h
        · cases h

theorem quoteRowEvent_bounds (row : QuoteRow) (e : DividendEvent)
    (h : quoteRowEvent row = some e) :
    0 < e.cashPerShare ∧ 1990 < e.year ∧ e.year < 2100 := by
  unfold quoteRowEvent at h
  split at h
  · split at h
    · cases h
    · split at h
      · split at h
        · rename_i hcond
          injection h with h
          subst h
          exact ⟨hcond.2.2, hcond.1, hcond.2.1⟩
        · cases h
      · cases h
  · cases h

theorem fundRowEvent_bounds (p : List Char × List Char) (e : DividendEvent)
    (h : fundRowEvent p = some e) :
    0 < e.cashPerShare ∧ 1990 < e.year ∧ e.year < 2100 := by
  unfold fundRowEvent at h
  dsimp only at h
  split at h
  · cases h
  · split at h
    · rename_i hcond
      injection h with h
      subst h
      exact ⟨hcond.2.2, hcond.1, hcond.2.1⟩
    · cases h

theorem fetchDividend_events_pos (o : FetchOutcome DivJson) (l : List DividendEventEx)
    (h : fetchDividend o = .ok l) (e : DividendEventEx) (he : e ∈ l) :
    0 < e.cashPerShare := by
  cases o with
  | netError msg =>
    simp only [fetchDividend] at h
    exact Except.noConfusion h
  | response st body =>
    simp only [fetchDividend] at h
    split at h
    · split at h
      · cases h
      · injection h with h
        subst h
        obtain ⟨r, _, hr⟩ := List.mem_filterMap.mp he
        exact dividendRowEvent_pos r e hr
    · injection h with h
      subst h
      cases he

theorem fetchDividendF10_events_bounds (o : FetchOutcome F10Json) (l : List DividendEvent)
    (h : fetchDividendF10 o = .ok l) (e : DividendEvent) (he : e ∈ l) :
    0 < e.cashPerShare ∧ 1990 < e.year ∧ e.year < 2100 := by
  cases o with
  | netError msg =>
    simp only [fetchDividendF10] at h
    exact Except.noConfusion h
  | response st body =>
    simp only [fetchDividendF10] at h
    split at h
    · split at h
      · cases h
      · split at h
        · split at h
          · injection h with h
            subst h
            obtain ⟨r, _, hr⟩ := List.mem_filterMap.mp he
            exact fhyxRowEvent_bounds r e hr
          · injection h with h
            subst h
            obtain ⟨r, _, hr⟩ := List.mem_filterMap.mp he
            exact sgbhRowEvent_bounds r e hr
        · injection h with h
          subst h
          obtain ⟨r, _, hr⟩ := List.mem_filterMap.mp he
          exact sgbhRowEvent_bounds r e hr
    · injection h with h
      subst h
      cases he

theorem quoteTryOne_events_bounds (o : FetchOutcome QuoteText) (e : DividendEvent)
    (he : e ∈ quoteTryOne o) :
    0 < e.cashPerShare ∧ 1990 < e.year ∧ e.year < 2100 := by
  cases o with
  | netError msg =>
    simp only [quoteTryOne] at he
    exact absurd he (List.not_mem_nil e)
  | response st body =>
    simp only [quoteTryOne] at he
    split at he
    · split at he
      · cases he
      · cases he
      · split at he
        · cases he
        · obtain ⟨r, _, hr⟩ := List.mem_filterMap.mp he
          exact quoteRowEvent_bounds r e hr
      · split at he
        · cases he
        · obtain ⟨r, _, hr⟩ := List.mem_filterMap.mp he
          exact quoteRowEvent_bounds r e hr
    · cases he

theorem fetchEtfDividendFromQuote_events_bounds (o1 o2 : FetchOutcome QuoteText)
    (e : DividendEvent) (he : e ∈ fetchEtfDividendFromQuote o1 o2) :
    0 < e.cashPerShare ∧ 1990 < e.year ∧ e.year < 2100 := by
  unfold fetchEtfDividendFromQuote at he
  dsimp only at he
  split at he
  · exact quoteTryOne_events_bounds o1 e he
  · split at he
    · exact quoteTryOne_events_bounds o2 e he
    · cases he

theorem fetchFundDividendFromPage_events_bounds (o : FetchOutcome String)
    (l : List DividendEvent) (h : fetchFundDividendFromPage o = .ok l)
    (e : DividendEvent) (he : e ∈ l) :
    0 < e.cashPerShare ∧ 1990 < e.year ∧ e.year < 2100 := by
  cases o with
  | netError msg =>
    simp only [fetchFundDividendFromPage] at h
    exact Except.noConfusion h
  | response st body =>
    simp only [fetchFundDividendFromPage] at h
    split at h
    · split at h
      · cases h
      · split at h
        · split at h
          · injection h with h
            subst h
            obtain ⟨r, _, hr⟩ := List.mem_filterMap.mp he
            exact fundRowEvent_bounds r e hr
          · injection h with h
            subst h
            obtain ⟨r, _, hr⟩ := List.mem_filterMap.mp he
            exact fundRowEvent_bounds r e hr
        · injection h with h
          subst h
          obtain ⟨r, _, hr⟩ := List.mem_filterMap.mp he
          exact fundRowEvent_bounds r e hr
    · injection h with h
      subst h
      cases he

/-- C5 (amended): every dividend event returned by the F10 source, the
quote source or the fund-page source has `cashPerShare > 0` and a year
strictly between 1990 and 2100, each failing row being dropped
individually; the data-center source (`fetchDividend`) guarantees only
`cashPerShare > 0` and a date that parses to a numeric year — it applies
no year-range filter. -/
theorem c5_source_bounds :
    (∀ (o : FetchOutcome DivJson) (l : List DividendEventEx), fetchDividend o = .ok l →
      ∀ e ∈ l, 0 < e.cashPerShare) ∧
    (∀ (o : FetchOutcome F10Json) (l : List DividendEvent), fetchDividendF10 o = .ok l →
      ∀ e ∈ l, 0 < e.cashPerShare ∧ 1990 < e.year ∧ e.year < 2100) ∧
    (∀ (o1 o2 : FetchOutcome QuoteText), ∀ e ∈ fetchEtfDividendFromQuote o1 o2,
      0 < e.cashPerShare ∧ 1990 < e.year ∧ e.year < 2100) ∧
    (∀ (o : FetchOutcome String) (l : List DividendEvent),
      fetchFundDividendFromPage o = .ok l →
      ∀ e ∈ l, 0 < e.cashPerShare ∧ 1990 < e.year ∧ e.year < 2100) :=
  ⟨fun o l h e he => fetchDividend_events_pos o l h e he,
   fun o l h e he => fetchDividendF10_events_bounds o l h e he,
   fun o1 o2 e he => fetchEtfDividendFromQuote_events_bounds o1 o2 e he,
   fun o l h e he => fetchFundDividendFromPage_events_bounds o l h e he⟩

/-- C5 (witness for the amended theorem). -/
theorem c5_source_bounds_witness :
    fetchDividendF10 (.response 200 (.ok f10JsonGood)) = .ok [⟨2020, 3 / 8⟩] ∧
    (0 < ((3 : ℚ) / 8) ∧ 1990 < (2020 : ℤ) ∧ (2020 : ℤ) < 2100) :=
  ⟨by with_unfolding_all rfl,
   c5_source_bounds.2.1 (.response 200 (.ok f10JsonGood)) [⟨2020, 3 / 8⟩]
     (by with_unfolding_all rfl) ⟨2020, 3 / 8⟩ (List.mem_singleton.mpr rfl)⟩

end StockAnalysis
